import Mathlib

/-!
# Odds-conversion and de-vig core of the m-edge calculators

Shallow embedding of `converters.py`, `deviggers.py` and `devig_testing.py`
from `tools/calculators`.

Modelling conventions:
* Python `float` values are modelled as exact rationals (`ℚ`), Python `int`
  as `ℤ` (real-number semantics of the floating-point source).
* A Python function that can raise is modelled as `Except Err α`:
  `ValueError` becomes `Err.invalidArgument`, `NotImplementedError` becomes
  `Err.unsupportedMethod`, and an uncontrolled `ZeroDivisionError` crash
  becomes `Err.zeroDivision`.  Exception propagation through a pipeline is
  written as an explicit match cascade on intermediate `Except` results.
* Python `int(x)` is truncation toward zero (`truncQ`); Python `round(x, 2)`
  is rounding to two decimal places with ties to even (`round2`).
-/

/-- Failure kinds of the calculators: `ValueError` (a violated domain
precondition), `NotImplementedError` (an unsupported de-vig method), and an
uncontrolled `ZeroDivisionError` crash. -/
inductive Err where
  | invalidArgument : Err
  | unsupportedMethod : Err
  | zeroDivision : Err
deriving DecidableEq

deriving instance DecidableEq for Except

/-- Python `int(q)`: truncation toward zero. -/
def truncQ (q : ℚ) : ℤ := if 0 ≤ q then ⌊q⌋ else ⌈q⌉

/-- Round a rational to the nearest integer, ties to even (Python `round`). -/
def roundHalfEven (q : ℚ) : ℤ :=
  if q - ⌊q⌋ < 1/2 then ⌊q⌋
  else if 1/2 < q - ⌊q⌋ then ⌊q⌋ + 1
  else if 2 ∣ ⌊q⌋ then ⌊q⌋ else ⌊q⌋ + 1

/-- Python `round(q, 2)`: round to two decimal places, ties to even. -/
def round2 (q : ℚ) : ℚ := (roundHalfEven (q * 100) : ℚ) / 100

/-- Python `str.lower()` restricted to its ASCII action (the only case the
de-vig code exercises): lowercase every Latin capital letter. -/
def pyLower (s : String) : String := String.mk (s.data.map Char.toLower)

/-- `american_to_decimal` from `converters.py`. -/
def american_to_decimal (american_odds : ℤ) : Except Err ℚ :=
  if american_odds = 0 then .error .invalidArgument
  else if 0 < american_odds then .ok ((american_odds : ℚ) / 100 + 1)
  else .ok (100 / ((|american_odds| : ℤ) : ℚ) + 1)

/-- `decimal_to_american` from `converters.py`.  The Python second branch
divides by `decimal_odds - 1.0` without a guard; the resulting
`ZeroDivisionError` at `decimal_odds = 1.0` is modelled as `Err.zeroDivision`. -/
def decimal_to_american (decimal_odds : ℚ) : Except Err ℤ :=
  if decimal_odds < 1 then .error .invalidArgument
  else if 2 ≤ decimal_odds then .ok (truncQ ((decimal_odds - 1) * 100))
  else if decimal_odds - 1 = 0 then .error .zeroDivision
  else .ok (truncQ (-100 / (decimal_odds - 1)))

/-- `decimal_to_implied` from `converters.py`. -/
def decimal_to_implied (decimal_odds : ℚ) : Except Err ℚ :=
  if decimal_odds ≤ 1 then .error .invalidArgument
  else .ok (1 / decimal_odds)

/-- `implied_to_decimal` from `converters.py`. -/
def implied_to_decimal (implied_prob : ℚ) : Except Err ℚ :=
  if implied_prob ≤ 0 ∨ 1 < implied_prob then .error .invalidArgument
  else .ok (1 / implied_prob)

/-- `devig_2way` from `deviggers.py`.  Note the method comparison lowercases
the method string (`method.lower() != "additive"`), and the returned vig is
`round(vig_percent, 2)`. -/
def devig_2way (odds1 odds2 : ℤ) (method : String) : Except Err (ℚ × ℤ × ℤ) :=
  if pyLower method ≠ "additive" then .error .unsupportedMethod
  else
  match american_to_decimal odds1 with
  | .error e => .error e
  | .ok dec1 =>
  match american_to_decimal odds2 with
  | .error e => .error e
  | .ok dec2 =>
  if dec1 ≤ 1 ∨ dec2 ≤ 1 then .error .invalidArgument
  else
  match decimal_to_implied dec1 with
  | .error e => .error e
  | .ok p1 =>
  match decimal_to_implied dec2 with
  | .error e => .error e
  | .ok p2 =>
  let book := p1 + p2
  if book ≤ 0 then .error .invalidArgument
  else
  let vig_percent := (book - 1) * 100
  let p1_vf := p1 / book
  let p2_vf := p2 / book
  match implied_to_decimal p1_vf with
  | .error e => .error e
  | .ok d1_vf =>
  match implied_to_decimal p2_vf with
  | .error e => .error e
  | .ok d2_vf =>
  if d1_vf ≤ 1 ∨ d2_vf ≤ 1 then .error .invalidArgument
  else
  match decimal_to_american d1_vf with
  | .error e => .error e
  | .ok o1_vf =>
  match decimal_to_american d2_vf with
  | .error e => .error e
  | .ok o2_vf =>
  .ok (round2 vig_percent, o1_vf, o2_vf)

/-- The American-to-implied loop of `devig_nway` (`deviggers.py`): convert
each American odd to decimal and then to implied probability, in input
order, propagating the first failure. -/
def impliedProbsOf : List ℤ → Except Err (List ℚ)
  | [] => .ok []
  | o :: rest =>
    match american_to_decimal o with
    | .error e => .error e
    | .ok dec =>
    match decimal_to_implied dec with
    | .error e => .error e
    | .ok implied =>
    match impliedProbsOf rest with
    | .error e => .error e
    | .ok ps => .ok (implied :: ps)

/-- The implied-to-American loop of `devig_nway` (`deviggers.py`): convert
each normalized probability back to decimal and then to American odds, in
order, propagating the first failure. -/
def toAmericanOf : List ℚ → Except Err (List ℤ)
  | [] => .ok []
  | p :: rest =>
    match implied_to_decimal p with
    | .error e => .error e
    | .ok dec =>
    match decimal_to_american dec with
    | .error e => .error e
    | .ok am =>
    match toAmericanOf rest with
    | .error e => .error e
    | .ok ams => .ok (am :: ams)

/-- `devig_nway` from `deviggers.py`.  The method comparison is exact
(`method != "additive"`, no lowercasing), and there is no length check on
`odds`. -/
def devig_nway (odds : List ℤ) (method : String) : Except Err (ℚ × List ℤ) :=
  if method ≠ "additive" then .error .unsupportedMethod
  else
  match impliedProbsOf odds with
  | .error e => .error e
  | .ok implied_probs =>
    let total_book := implied_probs.sum
    let vig_pct := (total_book - 1) * 100
    let devigged_probs := implied_probs.map (fun p => p / total_book)
    match toAmericanOf devigged_probs with
    | .error e => .error e
    | .ok devigged_odds => .ok (vig_pct, devigged_odds)

namespace devigTesting

/-- The American-to-implied loop of the duplicate `devig_nway` in
`devig_testing.py` (same converters module imported). -/
def impliedProbsOf : List ℤ → Except Err (List ℚ)
  | [] => .ok []
  | o :: rest =>
    match american_to_decimal o with
    | .error e => .error e
    | .ok dec =>
    match decimal_to_implied dec with
    | .error e => .error e
    | .ok implied =>
    match impliedProbsOf rest with
    | .error e => .error e
    | .ok ps => .ok (implied :: ps)

/-- The implied-to-American loop of the duplicate `devig_nway` in
`devig_testing.py`. -/
def toAmericanOf : List ℚ → Except Err (List ℤ)
  | [] => .ok []
  | p :: rest =>
    match implied_to_decimal p with
    | .error e => .error e
    | .ok dec =>
    match decimal_to_american dec with
    | .error e => .error e
    | .ok am =>
    match toAmericanOf rest with
    | .error e => .error e
    | .ok ams => .ok (am :: ams)

/-- The duplicate `devig_nway` from `devig_testing.py` (line-for-line the
same pipeline as the copy in `deviggers.py`). -/
def devig_nway (odds : List ℤ) (method : String) : Except Err (ℚ × List ℤ) :=
  if method ≠ "additive" then .error .unsupportedMethod
  else
  match impliedProbsOf odds with
  | .error e => .error e
  | .ok implied_probs =>
    let total_book := implied_probs.sum
    let vig_pct := (total_book - 1) * 100
    let devigged_probs := implied_probs.map (fun p => p / total_book)
    match toAmericanOf devigged_probs with
    | .error e => .error e
    | .ok devigged_odds => .ok (vig_pct, devigged_odds)

end devigTesting

/-! ## Evaluation lemmas -/

lemma truncQ_floor (q : ℚ) (n : ℤ) (h0 : 0 ≤ q) (h1 : (n : ℚ) ≤ q)
    (h2 : q < n + 1) : truncQ q = n := by
  rw [truncQ, if_pos h0]
  exact Int.floor_eq_iff.mpr ⟨h1, h2⟩

lemma truncQ_ceil (q : ℚ) (n : ℤ) (h0 : ¬ 0 ≤ q) (h1 : (n : ℚ) - 1 < q)
    (h2 : q ≤ n) : truncQ q = n := by
  rw [truncQ, if_neg h0]
  exact Int.ceil_eq_iff.mpr ⟨h1, h2⟩

lemma american_to_decimal_pos (a : ℤ) (h : 0 < a) :
    american_to_decimal a = .ok ((a : ℚ) / 100 + 1) := by
  rw [american_to_decimal, if_neg (by omega), if_pos h]

lemma american_to_decimal_neg (a : ℤ) (h : a < 0) :
    american_to_decimal a = .ok (100 / ((|a| : ℤ) : ℚ) + 1) := by
  rw [american_to_decimal, if_neg (by omega), if_neg (by omega)]

lemma decimal_to_implied_eval (d : ℚ) (h : 1 < d) :
    decimal_to_implied d = .ok (1 / d) := by
  rw [decimal_to_implied, if_neg (not_le.mpr h)]

lemma implied_to_decimal_eval (p : ℚ) (h0 : 0 < p) (h1 : p ≤ 1) :
    implied_to_decimal p = .ok (1 / p) := by
  rw [implied_to_decimal, if_neg (by push_neg; exact ⟨h0, h1⟩)]

lemma decimal_to_american_high (d : ℚ) (h : 2 ≤ d) :
    decimal_to_american d = .ok (truncQ ((d - 1) * 100)) := by
  rw [decimal_to_american, if_neg (by linarith), if_pos h]

lemma decimal_to_american_low (d : ℚ) (h1 : 1 < d) (h2 : d < 2) :
    decimal_to_american d = .ok (truncQ (-100 / (d - 1))) := by
  rw [decimal_to_american, if_neg (by linarith), if_neg (by linarith),
    if_neg (by intro h; apply absurd h; intro h'; linarith [sub_eq_zero.mp h'])]

lemma roundHalfEven_down (q : ℚ) (n : ℤ) (hf : ⌊q⌋ = n) (h : q - n < 1/2) :
    roundHalfEven q = n := by
  rw [roundHalfEven, hf, if_pos h]

lemma roundHalfEven_up (q : ℚ) (n : ℤ) (hf : ⌊q⌋ = n) (h : 1/2 < q - n) :
    roundHalfEven q = n + 1 := by
  rw [roundHalfEven, hf, if_neg (by linarith), if_pos h]

/-! ## General lemmas -/

lemma american_to_decimal_ok_of_ne (a : ℤ) (ha : a ≠ 0) :
    ∃ d : ℚ, american_to_decimal a = .ok d ∧ 1 < d := by
  rcases lt_or_gt_of_ne ha with h | h
  · refine ⟨_, american_to_decimal_neg a h, ?_⟩
    have h1 : (0 : ℚ) < ((|a| : ℤ) : ℚ) := by
      rw [Int.cast_pos]
      exact abs_pos.mpr ha
    have h2 : (0 : ℚ) < 100 / ((|a| : ℤ) : ℚ) := by positivity
    linarith
  · refine ⟨_, american_to_decimal_pos a h, ?_⟩
    have h1 : (0 : ℚ) < (a : ℚ) := by exact_mod_cast h
    have h2 : (0 : ℚ) < (a : ℚ) / 100 := by positivity
    linarith

lemma decimal_to_implied_ok_mem (d p : ℚ) (h : decimal_to_implied d = .ok p) :
    0 < p ∧ p < 1 := by
  rw [decimal_to_implied] at h
  split at h
  · exact Except.noConfusion h
  · rename_i hd
    push_neg at hd
    injection h with h'
    subst h'
    constructor
    · exact one_div_pos.mpr (by linarith)
    · rw [div_lt_one (by linarith)]; exact hd

lemma impliedProbsOf_ok_pos (odds : List ℤ) :
    ∀ (ps : List ℚ), impliedProbsOf odds = .ok ps → ∀ p ∈ ps, 0 < p := by
  induction odds with
  | nil =>
    intro ps h p hp
    simp only [impliedProbsOf] at h
    injection h with h'
    subst h'
    simp at hp
  | cons o rest ih =>
    intro ps h p hp
    rw [impliedProbsOf] at h
    cases hA : american_to_decimal o with
    | error e => rw [hA] at h; exact Except.noConfusion h
    | ok dec =>
      rw [hA] at h
      simp only [] at h
      cases hI : decimal_to_implied dec with
      | error e => rw [hI] at h; exact Except.noConfusion h
      | ok q =>
        rw [hI] at h
        simp only [] at h
        cases hR : impliedProbsOf rest with
        | error e => rw [hR] at h; exact Except.noConfusion h
        | ok qs =>
          rw [hR] at h
          simp only [] at h
          injection h with h'
          rw [← h'] at hp
          rcases List.mem_cons.mp hp with rfl | hp'
          · exact (decimal_to_implied_ok_mem dec p hI).1
          · exact ih qs hR p hp'

lemma list_sum_div (l : List ℚ) (S : ℚ) :
    (l.map fun p => p / S).sum = l.sum / S := by
  induction l with
  | nil => simp
  | cons a t ih => simp [ih, add_div]

lemma devig_2way_unsupported (s : String) (o1 o2 : ℤ)
    (h : pyLower s ≠ "additive") :
    devig_2way o1 o2 s = .error .unsupportedMethod := by
  rw [devig_2way, if_pos h]

lemma devig_nway_unsupported (s : String) (odds : List ℤ)
    (h : s ≠ "additive") :
    devig_nway odds s = .error .unsupportedMethod := by
  rw [devig_nway, if_pos h]

lemma devig_2way_lower_insensitive (s : String) (o1 o2 : ℤ)
    (h : pyLower s = "additive") :
    devig_2way o1 o2 s = devig_2way o1 o2 "additive" := by
  rw [devig_2way, devig_2way, if_neg (by simp [h]), if_neg (by decide)]

lemma impliedProbsOf_testing_eq (odds : List ℤ) :
    devigTesting.impliedProbsOf odds = impliedProbsOf odds := by
  induction odds with
  | nil => rfl
  | cons o rest ih =>
    rw [impliedProbsOf, devigTesting.impliedProbsOf, ih]

lemma toAmericanOf_testing_eq (l : List ℚ) :
    devigTesting.toAmericanOf l = toAmericanOf l := by
  induction l with
  | nil => rfl
  | cons p rest ih =>
    rw [toAmericanOf, devigTesting.toAmericanOf, ih]

lemma devig_nway_vig_eq (odds : List ℤ) (v : ℚ) (ds : List ℤ) (ps : List ℚ)
    (h : devig_nway odds "additive" = .ok (v, ds))
    (hps : impliedProbsOf odds = .ok ps) :
    v = (ps.sum - 1) * 100 := by
  rw [devig_nway, if_neg (by simp)] at h
  simp only [hps] at h
  split at h
  · exact Except.noConfusion h
  · simp only [Except.ok.injEq, Prod.mk.injEq] at h
    exact h.1.symm

lemma devig_2way_vig_eq (o1 o2 : ℤ) (v : ℚ) (a b : ℤ) (d1 d2 p1 p2 : ℚ)
    (h : devig_2way o1 o2 "additive" = .ok (v, a, b))
    (h1 : american_to_decimal o1 = .ok d1)
    (h2 : american_to_decimal o2 = .ok d2)
    (h3 : decimal_to_implied d1 = .ok p1)
    (h4 : decimal_to_implied d2 = .ok p2) :
    v = round2 ((p1 + p2 - 1) * 100) := by
  rw [devig_2way, if_neg (by decide)] at h
  simp only [h1, h2] at h
  split at h
  · exact Except.noConfusion h
  simp only [h3, h4] at h
  split at h
  · exact Except.noConfusion h
  split at h
  · exact Except.noConfusion h
  split at h
  · exact Except.noConfusion h
  split at h
  · exact Except.noConfusion h
  split at h
  · exact Except.noConfusion h
  split at h
  · exact Except.noConfusion h
  simp only [Except.ok.injEq, Prod.mk.injEq] at h
  exact h.1.symm

lemma devig_nway_single (a : ℤ) (ha : a ≠ 0) :
    devig_nway [a] "additive" = .error .zeroDivision := by
  obtain ⟨d, hd, hd1⟩ := american_to_decimal_ok_of_ne a ha
  have hI : decimal_to_implied d = .ok (1/d) := decimal_to_implied_eval d hd1
  have hip : impliedProbsOf [a] = .ok [1/d] := by
    simp [impliedProbsOf, hd, hI]
  have e1 : implied_to_decimal 1 = .ok 1 := by
    rw [implied_to_decimal_eval 1 one_pos le_rfl]; norm_num
  have e2 : decimal_to_american 1 = .error .zeroDivision := by
    rw [decimal_to_american, if_neg (by norm_num), if_neg (by norm_num),
      if_pos (by norm_num)]
  have hto : toAmericanOf [1] = .error .zeroDivision := by
    simp [toAmericanOf, e1, e2]
  have hd0 : (1 : ℚ) / d ≠ 0 := one_div_ne_zero (by linarith)
  rw [devig_nway, if_neg (by simp)]
  simp only [hip, List.sum_cons, List.sum_nil, add_zero, List.map_cons,
    List.map_nil]
  rw [div_self hd0]
  simp only [hto]

/-! ## Concrete evaluations shared between claims -/

lemma eval_am_neg110 : american_to_decimal (-110) = .ok (21/11) := by
  rw [american_to_decimal_neg _ (by norm_num)]; norm_num

lemma eval_imp_2111 : decimal_to_implied (21/11 : ℚ) = .ok (11/21) := by
  rw [decimal_to_implied_eval _ (by norm_num)]; norm_num

lemma eval_probs_neg110 : impliedProbsOf [-110, -110] = .ok [11/21, 11/21] := by
  simp [impliedProbsOf, eval_am_neg110, eval_imp_2111]

lemma eval_imp_half : implied_to_decimal (1/2 : ℚ) = .ok 2 := by
  rw [implied_to_decimal_eval _ (by norm_num) (by norm_num)]; norm_num

lemma eval_da_two : decimal_to_american 2 = .ok 100 := by
  rw [decimal_to_american_high _ (by norm_num)]
  rw [truncQ_floor _ 100 (by norm_num) (by norm_num) (by norm_num)]

lemma eval_nway_neg110 :
    devig_nway [-110, -110] "additive" = .ok (100/21, [100, 100]) := by
  rw [devig_nway, if_neg (by simp)]
  simp only [eval_probs_neg110]
  rw [show List.sum [(11:ℚ)/21, 11/21] = 22/21 by norm_num]
  rw [show ([(11:ℚ)/21, 11/21].map fun p => p / (22/21)) = [1/2, 1/2] from by
    norm_num]
  have hto : toAmericanOf [1/2, 1/2] = .ok [100, 100] := by
    simp only [toAmericanOf, eval_imp_half, eval_da_two]
  simp only [hto]
  norm_num

lemma eval_am_100 : american_to_decimal 100 = .ok 2 := by
  rw [american_to_decimal_pos _ (by norm_num)]; norm_num

lemma eval_imp_two : decimal_to_implied (2 : ℚ) = .ok (1/2) := by
  rw [decimal_to_implied_eval _ (by norm_num)]

lemma eval_round2_zero : round2 0 = 0 := by
  have hf : ⌊(0 : ℚ) * 100⌋ = 0 := by
    rw [show ((0:ℚ) * 100) = 0 by ring]; exact Int.floor_zero
  rw [round2, roundHalfEven_down _ 0 hf (by push_cast; norm_num)]
  norm_num

lemma eval_2way_upper :
    devig_2way 100 100 "ADDITIVE" = .ok (0, 100, 100) := by
  rw [devig_2way, if_neg (by decide)]
  simp only [eval_am_100]
  rw [if_neg (by norm_num)]
  simp only [eval_imp_two]
  rw [if_neg (by norm_num)]
  rw [show ((1:ℚ)/2 / (1/2 + 1/2)) = 1/2 by norm_num]
  simp only [eval_imp_half]
  rw [if_neg (by norm_num)]
  simp only [eval_da_two]
  rw [show ((1:ℚ)/2 + 1/2 - 1) * 100 = 0 by ring]
  rw [eval_round2_zero]

lemma eval_2way_neg110 :
    devig_2way (-110) (-110) "additive" = .ok (119/25, 100, 100) := by
  rw [devig_2way, if_neg (by decide)]
  simp only [eval_am_neg110]
  rw [if_neg (by norm_num)]
  simp only [eval_imp_2111]
  rw [if_neg (by norm_num)]
  rw [show ((11:ℚ)/21 / (11/21 + 11/21)) = 1/2 by norm_num]
  simp only [eval_imp_half]
  rw [if_neg (by norm_num)]
  simp only [eval_da_two]
  have hf : ⌊((11:ℚ)/21 + 11/21 - 1) * 100 * 100⌋ = 476 := by
    rw [show ((11:ℚ)/21 + 11/21 - 1) * 100 * 100 = 10000/21 by ring]
    exact Int.floor_eq_iff.mpr (by norm_num)
  rw [round2, roundHalfEven_down _ 476 hf (by push_cast; norm_num)]
  norm_num

lemma eval_nway_spec_market :
    devig_nway [-240, 350, 600] "additive" = .ok (7600/1071, [-193, 381, 649]) := by
  have h1 : american_to_decimal (-240) = .ok (17/12) := by
    rw [american_to_decimal_neg _ (by norm_num)]; norm_num
  have h2 : decimal_to_implied (17/12 : ℚ) = .ok (12/17) := by
    rw [decimal_to_implied_eval _ (by norm_num)]; norm_num
  have h3 : american_to_decimal 350 = .ok (9/2) := by
    rw [american_to_decimal_pos _ (by norm_num)]; norm_num
  have h4 : decimal_to_implied (9/2 : ℚ) = .ok (2/9) := by
    rw [decimal_to_implied_eval _ (by norm_num)]; norm_num
  have h5 : american_to_decimal 600 = .ok 7 := by
    rw [american_to_decimal_pos _ (by norm_num)]; norm_num
  have h6 : decimal_to_implied (7 : ℚ) = .ok (1/7) := by
    rw [decimal_to_implied_eval _ (by norm_num)]
  have hip : impliedProbsOf [-240, 350, 600] = .ok [12/17, 2/9, 1/7] := by
    simp [impliedProbsOf, h1, h2, h3, h4, h5, h6]
  have t1 : implied_to_decimal (756/1147 : ℚ) = .ok (1147/756) := by
    rw [implied_to_decimal_eval _ (by norm_num) (by norm_num)]; norm_num
  have t2 : decimal_to_american (1147/756 : ℚ) = .ok (-193) := by
    rw [decimal_to_american_low _ (by norm_num) (by norm_num)]
    rw [truncQ_ceil _ (-193) (by norm_num) (by norm_num) (by norm_num)]
  have t3 : implied_to_decimal (238/1147 : ℚ) = .ok (1147/238) := by
    rw [implied_to_decimal_eval _ (by norm_num) (by norm_num)]; norm_num
  have t4 : decimal_to_american (1147/238 : ℚ) = .ok 381 := by
    rw [decimal_to_american_high _ (by norm_num)]
    rw [truncQ_floor _ 381 (by norm_num) (by norm_num) (by norm_num)]
  have t5 : implied_to_decimal (153/1147 : ℚ) = .ok (1147/153) := by
    rw [implied_to_decimal_eval _ (by norm_num) (by norm_num)]; norm_num
  have t6 : decimal_to_american (1147/153 : ℚ) = .ok 649 := by
    rw [decimal_to_american_high _ (by norm_num)]
    rw [truncQ_floor _ 649 (by norm_num) (by norm_num) (by norm_num)]
  have hto : toAmericanOf [756/1147, 238/1147, 153/1147] = .ok [-193, 381, 649] := by
    simp [toAmericanOf, t1, t2, t3, t4, t5, t6]
  rw [devig_nway, if_neg (by simp)]
  simp only [hip]
  rw [show List.sum [(12:ℚ)/17, 2/9, 1/7] = 1147/1071 by
    norm_num [List.sum_cons, List.sum_nil]]
  simp only [List.map_cons, List.map_nil]
  norm_num
  rw [hto]

lemma eval_2way_120_neg140 :
    devig_2way 120 (-140) "additive" = .ok (379/100, 128, -128) := by
  have a1 : american_to_decimal 120 = .ok (11/5) := by
    rw [american_to_decimal_pos _ (by norm_num)]; norm_num
  have a2 : american_to_decimal (-140) = .ok (12/7) := by
    rw [american_to_decimal_neg _ (by norm_num)]; norm_num
  have i1 : decimal_to_implied (11/5 : ℚ) = .ok (5/11) := by
    rw [decimal_to_implied_eval _ (by norm_num)]; norm_num
  have i2 : decimal_to_implied (12/7 : ℚ) = .ok (7/12) := by
    rw [decimal_to_implied_eval _ (by norm_num)]; norm_num
  have j1 : implied_to_decimal (60/137 : ℚ) = .ok (137/60) := by
    rw [implied_to_decimal_eval _ (by norm_num) (by norm_num)]; norm_num
  have j2 : implied_to_decimal (77/137 : ℚ) = .ok (137/77) := by
    rw [implied_to_decimal_eval _ (by norm_num) (by norm_num)]; norm_num
  have k1 : decimal_to_american (137/60 : ℚ) = .ok 128 := by
    rw [decimal_to_american_high _ (by norm_num)]
    rw [truncQ_floor _ 128 (by norm_num) (by norm_num) (by norm_num)]
  have k2 : decimal_to_american (137/77 : ℚ) = .ok (-128) := by
    rw [decimal_to_american_low _ (by norm_num) (by norm_num)]
    rw [truncQ_ceil _ (-128) (by norm_num) (by norm_num) (by norm_num)]
  have hf : ⌊(125/33 : ℚ) * 100⌋ = 378 := Int.floor_eq_iff.mpr (by norm_num)
  have hr : round2 (125/33 : ℚ) = 379/100 := by
    rw [round2, roundHalfEven_up _ 378 hf (by norm_num)]; norm_num
  rw [devig_2way, if_neg (by decide)]
  simp only [a1, a2]
  rw [if_neg (by norm_num)]
  simp only [i1, i2]
  rw [if_neg (by norm_num)]
  norm_num
  simp only [j1, j2]
  rw [if_neg (by norm_num)]
  simp only [k1, k2]
  norm_num [hr]

lemma eval_nway_empty : devig_nway [] "additive" = .ok (-100, []) := by
  rw [devig_nway, if_neg (by simp)]
  simp [impliedProbsOf, toAmericanOf]

/-! ## Claims -/

/-- **C1** counterexample.  The claim says `devig_nway` fails with
`InvalidArgument` on every market of fewer than two odds and never returns
a result for such inputs.  In the source there is no length check: the
empty market returns `(-100.0, [])` without failing. -/
theorem C1_counterexample :
    devig_nway [] "additive" = .ok (-100, []) ∧
    devig_nway [] "additive" ≠ .error .invalidArgument := by
  refine ⟨eval_nway_empty, ?_⟩
  rw [eval_nway_empty]
  exact fun hc => Except.noConfusion hc

/-- **C1** (amended).  `devig_nway` performs no market-length validation:
the empty sequence returns vig `-100` with an empty odds list, and a
one-element market (any nonzero American odds) fails with the uncontrolled
division-by-zero crash inside `decimal_to_american`, not with
`InvalidArgument`. -/
theorem C1_no_length_check :
    devig_nway [] "additive" = .ok (-100, []) ∧
    ∀ a : ℤ, a ≠ 0 → devig_nway [a] "additive" = .error .zeroDivision :=
  ⟨eval_nway_empty, fun a ha => devig_nway_single a ha⟩

/-- Witness for C1 at the single-element market `[100]`. -/
theorem C1_witness :
    devig_nway [100] "additive" = .error .zeroDivision :=
  C1_no_length_check.2 100 (by decide)

/-- **C2** counterexample.  `devig_2way` lowercases the method string, so
the non-`"additive"` method value `"ADDITIVE"` does not fail with
`UnsupportedMethod`: it silently runs the additive pipeline and returns a
result. -/
theorem C2_counterexample :
    ("ADDITIVE" ≠ "additive") ∧
    devig_2way 100 100 "ADDITIVE" = .ok (0, 100, 100) :=
  ⟨by decide, eval_2way_upper⟩

/-- **C2** (amended).  `devig_nway` fails with `UnsupportedMethod` for every
method string other than exactly `"additive"`, and `devig_2way` fails with
`UnsupportedMethod` for every method string whose lowercasing is not
`"additive"`; hence the recognized-but-unimplemented `"subtractive"`,
`"power"` and `"shin"` fail identically in both, but casing variants of
`"additive"` are silently executed additively by `devig_2way`. -/
theorem C2_unsupported_methods :
    (∀ (s : String) (o1 o2 : ℤ), pyLower s ≠ "additive" →
      devig_2way o1 o2 s = .error .unsupportedMethod) ∧
    (∀ (s : String) (odds : List ℤ), s ≠ "additive" →
      devig_nway odds s = .error .unsupportedMethod) :=
  ⟨fun s o1 o2 h => devig_2way_unsupported s o1 o2 h,
   fun s odds h => devig_nway_unsupported s odds h⟩

/-- Witness for C2 at the methods `"shin"`, `"power"`, `"subtractive"`. -/
theorem C2_witness :
    devig_2way (-110) (-110) "shin" = .error .unsupportedMethod ∧
    devig_nway [-110, -110] "power" = .error .unsupportedMethod ∧
    devig_nway [-110, -110] "subtractive" = .error .unsupportedMethod :=
  ⟨C2_unsupported_methods.1 "shin" (-110) (-110) (by decide),
   C2_unsupported_methods.2 "power" [-110, -110] (by decide),
   C2_unsupported_methods.2 "subtractive" [-110, -110] (by decide)⟩

/-- **C3** counterexample.  On the spec's own N-way example
`[-240, 350, 600]`, the implied probabilities recovered from the de-vigged
American outputs `[-193, 381, 649]` sum to `1 + 12100/105558817`
(about `1.000115`), which is not within `1e-6` of `1`. -/
theorem C3_counterexample :
    devig_nway [-240, 350, 600] "additive" = .ok (7600/1071, [-193, 381, 649]) ∧
    impliedProbsOf [-193, 381, 649] = .ok [193/293, 100/481, 100/749] ∧
    ¬ |(193/293 + 100/481 + 100/749 : ℚ) - 1| ≤ 1/1000000 := by
  refine ⟨eval_nway_spec_market, ?_, ?_⟩
  · have u1 : american_to_decimal (-193) = .ok (293/193) := by
      rw [american_to_decimal_neg _ (by norm_num)]; norm_num
    have u2 : decimal_to_implied (293/193 : ℚ) = .ok (193/293) := by
      rw [decimal_to_implied_eval _ (by norm_num)]; norm_num
    have u3 : american_to_decimal 381 = .ok (481/100) := by
      rw [american_to_decimal_pos _ (by norm_num)]; norm_num
    have u4 : decimal_to_implied (481/100 : ℚ) = .ok (100/481) := by
      rw [decimal_to_implied_eval _ (by norm_num)]; norm_num
    have u5 : american_to_decimal 649 = .ok (749/100) := by
      rw [american_to_decimal_pos _ (by norm_num)]; norm_num
    have u6 : decimal_to_implied (749/100 : ℚ) = .ok (100/749) := by
      rw [decimal_to_implied_eval _ (by norm_num)]; norm_num
    simp [impliedProbsOf, u1, u2, u3, u4, u5, u6]
  · rw [show (193/293 + 100/481 + 100/749 : ℚ) - 1 = 12100/105558817 by
      norm_num]
    rw [abs_of_pos (by norm_num)]
    norm_num

/-- **C3** (amended).  For every valid N-way market the additive de-vig
produces normalized probabilities that sum to exactly `1` *before* the
lossy re-encoding into American odds; the `1e-6` tolerance claimed for the
sum recovered after re-encoding does not hold in general (see the
counterexample, where the deviation is about `1.1e-4`). -/
theorem C3_exact_sum_before_reencoding :
    ∀ (odds : List ℤ) (ps : List ℚ), impliedProbsOf odds = .ok ps → ps ≠ [] →
      (ps.map fun p => p / ps.sum).sum = 1 := by
  intro odds ps h hne
  have hpos : ∀ p ∈ ps, 0 < p := impliedProbsOf_ok_pos odds ps h
  have hS : 0 < ps.sum := List.sum_pos ps hpos hne
  rw [list_sum_div, div_self (ne_of_gt hS)]

/-- Witness for C3 at the market `[-110, -110]`. -/
theorem C3_witness :
    impliedProbsOf [-110, -110] = .ok [11/21, 11/21] ∧
    (([(11:ℚ)/21, 11/21]).map fun p => p / ([(11:ℚ)/21, 11/21]).sum).sum = 1 :=
  ⟨eval_probs_neg110,
   C3_exact_sum_before_reencoding [-110, -110] _ eval_probs_neg110 (by simp)⟩

/-- **C4** counterexample.  `devig_2way 120 (-140) "additive"` returns the
vig `3.79`, the two-decimal rounding of the exact
`(totalBook - 1) * 100 = 125/33` (about `3.7879`), so its vig is not
exactly `(totalBook - 1) * 100`. -/
theorem C4_counterexample :
    devig_2way 120 (-140) "additive" = .ok (379/100, 128, -128) ∧
    impliedProbsOf [120, -140] = .ok [5/11, 7/12] ∧
    (379/100 : ℚ) ≠ (((5:ℚ)/11 + 7/12) - 1) * 100 := by
  refine ⟨eval_2way_120_neg140, ?_, by norm_num⟩
  have a1 : american_to_decimal 120 = .ok (11/5) := by
    rw [american_to_decimal_pos _ (by norm_num)]; norm_num
  have a2 : american_to_decimal (-140) = .ok (12/7) := by
    rw [american_to_decimal_neg _ (by norm_num)]; norm_num
  have i1 : decimal_to_implied (11/5 : ℚ) = .ok (5/11) := by
    rw [decimal_to_implied_eval _ (by norm_num)]; norm_num
  have i2 : decimal_to_implied (12/7 : ℚ) = .ok (7/12) := by
    rw [decimal_to_implied_eval _ (by norm_num)]; norm_num
  simp [impliedProbsOf, a1, a2, i1, i2]

/-- **C4** (amended).  On every valid input `devig_nway` returns the vig
exactly `(totalBook - 1) * 100`, while `devig_2way` returns that quantity
rounded to two decimal places (Python `round(vig, 2)`), not the exact
value. -/
theorem C4_vig_formula :
    (∀ (odds : List ℤ) (v : ℚ) (ds : List ℤ) (ps : List ℚ),
      devig_nway odds "additive" = .ok (v, ds) →
      impliedProbsOf odds = .ok ps → v = (ps.sum - 1) * 100) ∧
    (∀ (o1 o2 : ℤ) (v : ℚ) (a b : ℤ) (d1 d2 p1 p2 : ℚ),
      devig_2way o1 o2 "additive" = .ok (v, a, b) →
      american_to_decimal o1 = .ok d1 →
      american_to_decimal o2 = .ok d2 →
      decimal_to_implied d1 = .ok p1 →
      decimal_to_implied d2 = .ok p2 →
      v = round2 ((p1 + p2 - 1) * 100)) :=
  ⟨fun odds v ds ps h hps => devig_nway_vig_eq odds v ds ps h hps,
   fun o1 o2 v a b d1 d2 p1 p2 h h1 h2 h3 h4 =>
     devig_2way_vig_eq o1 o2 v a b d1 d2 p1 p2 h h1 h2 h3 h4⟩

/-- Witness for C4 at the market `[-110, -110]`. -/
theorem C4_witness :
    (100/21 : ℚ) = (([(11:ℚ)/21, 11/21]).sum - 1) * 100 ∧
    (119/25 : ℚ) = round2 (((11:ℚ)/21 + 11/21 - 1) * 100) :=
  ⟨C4_vig_formula.1 [-110, -110] (100/21) [100, 100] [11/21, 11/21]
      eval_nway_neg110 eval_probs_neg110,
   C4_vig_formula.2 (-110) (-110) (119/25) 100 100 (21/11) (21/11) (11/21)
      (11/21) eval_2way_neg110 eval_am_neg110 eval_am_neg110 eval_imp_2111
      eval_imp_2111⟩

/-- **C5** (confirmed).  `decimal_to_american` rejects decimal odds `< 1`
with `InvalidArgument`; for `d ≥ 2` it returns `(d - 1) * 100` truncated
toward zero, and for `1 < d < 2` it returns `-100 / (d - 1)` truncated
toward zero (truncation, not rounding to nearest); in particular
`2.5 ↦ 150`, `1.5 ↦ -200`, and the fractional cases `2.999 ↦ 199` and
`1.07 ↦ -1428` truncate toward zero. -/
theorem C5_decimal_to_american_spec :
    (∀ d : ℚ, d < 1 → decimal_to_american d = .error .invalidArgument) ∧
    (∀ d : ℚ, 2 ≤ d → decimal_to_american d = .ok (truncQ ((d - 1) * 100))) ∧
    (∀ d : ℚ, 1 < d → d < 2 →
      decimal_to_american d = .ok (truncQ (-100 / (d - 1)))) ∧
    decimal_to_american (5/2) = .ok 150 ∧
    decimal_to_american (3/2) = .ok (-200) ∧
    decimal_to_american (2999/1000) = .ok 199 ∧
    decimal_to_american (107/100) = .ok (-1428) := by
  refine ⟨?_, fun d h => decimal_to_american_high d h,
    fun d h1 h2 => decimal_to_american_low d h1 h2, ?_, ?_, ?_, ?_⟩
  · intro d h; rw [decimal_to_american, if_pos h]
  · rw [decimal_to_american_high _ (by norm_num)]
    rw [truncQ_floor _ 150 (by norm_num) (by norm_num) (by norm_num)]
  · rw [decimal_to_american_low _ (by norm_num) (by norm_num)]
    rw [truncQ_ceil _ (-200) (by norm_num) (by norm_num) (by norm_num)]
  · rw [decimal_to_american_high _ (by norm_num)]
    rw [truncQ_floor _ 199 (by norm_num) (by norm_num) (by norm_num)]
  · rw [decimal_to_american_low _ (by norm_num) (by norm_num)]
    rw [truncQ_ceil _ (-1428) (by norm_num) (by norm_num) (by norm_num)]

/-- Witness for C5 at `0.5`, `2.5` and `1.5`. -/
theorem C5_witness :
    decimal_to_american (1/2) = .error .invalidArgument ∧
    decimal_to_american (5/2) = .ok (truncQ (((5:ℚ)/2 - 1) * 100)) ∧
    decimal_to_american (3/2) = .ok (truncQ (-100 / ((3:ℚ)/2 - 1))) :=
  ⟨C5_decimal_to_american_spec.1 (1/2) (by norm_num),
   C5_decimal_to_american_spec.2.1 (5/2) (by norm_num),
   C5_decimal_to_american_spec.2.2.1 (3/2) (by norm_num) (by norm_num)⟩

/-- **C6** (confirmed).  Decimal odds exactly `1.0` pass the precondition
check of `decimal_to_american` (which rejects only `< 1.0`) and reach the
division `-100 / (decimal_odds - 1)` with a zero denominator: the call
fails with the uncontrolled division-by-zero crash, a failure kind distinct
from `InvalidArgument`. -/
theorem C6_crash_at_one :
    ¬ ((1:ℚ) < 1) ∧
    decimal_to_american 1 = .error .zeroDivision ∧
    Err.zeroDivision ≠ Err.invalidArgument := by
  refine ⟨by norm_num, ?_, by decide⟩
  rw [decimal_to_american, if_neg (by norm_num), if_neg (by norm_num),
    if_pos (by norm_num)]

/-- **C7** (confirmed).  `american_to_decimal` fails with `InvalidArgument`
exactly on input `0`; positive odds `a` map to `a/100 + 1` and negative
odds to `100/|a| + 1`; in particular `150 ↦ 2.5` and `-250 ↦ 1.4`. -/
theorem C7_american_to_decimal_spec :
    (∀ a : ℤ, american_to_decimal a = .error .invalidArgument ↔ a = 0) ∧
    (∀ a : ℤ, 0 < a → american_to_decimal a = .ok ((a : ℚ) / 100 + 1)) ∧
    (∀ a : ℤ, a < 0 →
      american_to_decimal a = .ok (100 / ((|a| : ℤ) : ℚ) + 1)) ∧
    american_to_decimal 150 = .ok (5/2) ∧
    american_to_decimal (-250) = .ok (7/5) := by
  refine ⟨?_, fun a h => american_to_decimal_pos a h,
    fun a h => american_to_decimal_neg a h, ?_, ?_⟩
  · intro a
    constructor
    · intro h
      by_contra ha
      rcases lt_or_gt_of_ne ha with hlt | hgt
      · rw [american_to_decimal_neg a hlt] at h; exact Except.noConfusion h
      · rw [american_to_decimal_pos a hgt] at h; exact Except.noConfusion h
    · intro h; rw [h, american_to_decimal, if_pos rfl]
  · rw [american_to_decimal_pos _ (by norm_num)]; norm_num
  · rw [american_to_decimal_neg _ (by norm_num)]; norm_num

/-- Witness for C7 at `0`, `150` and `-250`. -/
theorem C7_witness :
    american_to_decimal 0 = .error .invalidArgument ∧
    american_to_decimal 150 = .ok (((150 : ℤ) : ℚ) / 100 + 1) ∧
    american_to_decimal (-250) = .ok (100 / ((|(-250 : ℤ)| : ℤ) : ℚ) + 1) :=
  ⟨(C7_american_to_decimal_spec.1 0).mpr rfl,
   C7_american_to_decimal_spec.2.1 150 (by decide),
   C7_american_to_decimal_spec.2.2.1 (-250) (by decide)⟩

/-- **C8** (confirmed).  For every decimal odds `d > 1`, converting to
implied probability and back is the exact identity: both conversions are
pure reciprocals with no truncation. -/
theorem C8_implied_roundtrip :
    ∀ d : ℚ, 1 < d →
      (decimal_to_implied d).bind implied_to_decimal = .ok d := by
  intro d hd
  have h0 : (0:ℚ) < d := by linarith
  rw [decimal_to_implied_eval d hd]
  show implied_to_decimal (1/d) = .ok d
  rw [implied_to_decimal_eval _ (one_div_pos.mpr h0)
    (by rw [div_le_one h0]; linarith)]
  rw [one_div_one_div]

/-- Witness for C8 at `d = 8`. -/
theorem C8_witness :
    (decimal_to_implied 8).bind implied_to_decimal = .ok 8 :=
  C8_implied_roundtrip 8 (by norm_num)

/-- **C9** (confirmed).  The two copies of `devig_nway` — the one in
`deviggers.py` and the one in `devig_testing.py` — are extensionally equal:
for every odds list and every method string they return identical results
and fail with identical failure kinds. -/
theorem C9_duplicate_equivalence :
    ∀ (odds : List ℤ) (method : String),
      devig_nway odds method = devigTesting.devig_nway odds method := by
  intro odds method
  simp only [devig_nway, devigTesting.devig_nway, impliedProbsOf_testing_eq,
    toAmericanOf_testing_eq]

/-- **C10** (confirmed).  The two de-vig entry points disagree on
method-string case handling: `devig_2way` lowercases the method before
comparing, so any casing variant of `"additive"` runs the additive
pipeline, while `devig_nway` compares exactly, so `"ADDITIVE"` fails with
the unsupported-method failure kind. -/
theorem C10_method_case_asymmetry :
    (∀ (s : String) (o1 o2 : ℤ), pyLower s = "additive" →
      devig_2way o1 o2 s = devig_2way o1 o2 "additive") ∧
    (∀ (s : String) (odds : List ℤ), s ≠ "additive" →
      devig_nway odds s = .error .unsupportedMethod) ∧
    devig_2way 100 100 "ADDITIVE" = .ok (0, 100, 100) ∧
    devig_nway [100, 100] "ADDITIVE" = .error .unsupportedMethod :=
  ⟨fun s o1 o2 h => devig_2way_lower_insensitive s o1 o2 h,
   fun s odds h => devig_nway_unsupported s odds h,
   eval_2way_upper,
   devig_nway_unsupported "ADDITIVE" [100, 100] (by decide)⟩

/-- Witness for C10 at the casing variant `"Additive"`. -/
theorem C10_witness :
    devig_2way (-110) (-110) "Additive" = devig_2way (-110) (-110) "additive" ∧
    devig_nway [-110, -110] "Additive" = .error .unsupportedMethod :=
  ⟨C10_method_case_asymmetry.1 "Additive" (-110) (-110) (by decide),
   C10_method_case_asymmetry.2.1 "Additive" [-110, -110] (by decide)⟩
